import Mathlib

/-!
Verification of the airframe mcp-client bridge (src/index.ts) against its
specification.  The TypeScript source is shallowly embedded: JSON documents
become an inductive `Json` value type, `JSON.parse` becomes a fuel-based
recursive-descent function `jsonParse` (restricted to integer numerals and
basic escapes), the SSE stream handler becomes a fold over text chunks, and
`forwardRequest` becomes a total function from an abstract fetch outcome to
the returned JSON-RPC response plus the list of relayed notifications.
-/

/-- JSON values as produced by the platform JSON parser.  Numbers are
restricted to integers: every number appearing in the bridge's protocol
(correlation ids, error codes, progress counts) is integral. -/
inductive Json where
  | null
  | bool (b : Bool)
  | num (n : Int)
  | str (s : String)
  | arr (elems : List Json)
  | obj (fields : List (String × Json))

/-- JavaScript property access `j.key` on a parsed JSON value: on objects the
last binding of the key wins (JSON.parse keeps the last duplicate key);
on every non-object value the access yields `undefined`, modelled `none`. -/
def Json.getField (j : Json) (key : String) : Option Json :=
  match j with
  | .obj fields => lookupLast fields
  | _ => none
where
  lookupLast : List (String × Json) → Option Json
    | [] => none
    | (k, v) :: rest =>
      match lookupLast rest with
      | some r => some r
      | none => if k = key then some v else none

/-- JavaScript truthiness of a JSON value (`undefined` is handled by callers
via `Option`). -/
def Json.truthy : Json → Bool
  | .null => false
  | .bool b => b
  | .num n => decide (n ≠ 0)
  | .str s => decide (s ≠ "")
  | .arr _ => true
  | .obj _ => true

/-- JSON whitespace characters. -/
def isJsonWs (c : Char) : Bool := c == ' ' || c == '\t' || c == '\n' || c == '\r'

/-- Drop leading JSON whitespace. -/
def skipWs : List Char → List Char
  | [] => []
  | c :: rest => if isJsonWs c then skipWs rest else c :: rest

/-- Decimal digit in the ASCII range. -/
def isDigitChar (c : Char) : Bool := 48 ≤ c.toNat && c.toNat ≤ 57

/-- Parse the body of a JSON string literal after the opening quote,
handling the single-character escapes (`\u` escapes are not modelled). -/
def parseStringBody : List Char → List Char → Option (String × List Char)
  | [], _ => none
  | c :: rest, acc =>
    if c == '"' then some (String.mk acc.reverse, rest)
    else if c == '\\' then
      match rest with
      | [] => none
      | e :: rest2 =>
        if e == '"' then parseStringBody rest2 ('"' :: acc)
        else if e == '\\' then parseStringBody rest2 ('\\' :: acc)
        else if e == '/' then parseStringBody rest2 ('/' :: acc)
        else if e == 'n' then parseStringBody rest2 ('\n' :: acc)
        else if e == 't' then parseStringBody rest2 ('\t' :: acc)
        else if e == 'r' then parseStringBody rest2 ('\r' :: acc)
        else if e == 'b' then parseStringBody rest2 (Char.ofNat 8 :: acc)
        else if e == 'f' then parseStringBody rest2 (Char.ofNat 12 :: acc)
        else none
    else parseStringBody rest (c :: acc)

/-- Parse a nonempty run of decimal digits into a natural number. -/
def parseDigits : List Char → Nat → Bool → Option (Nat × List Char)
  | [], acc, seen => if seen then some (acc, []) else none
  | c :: rest, acc, seen =>
    if isDigitChar c then parseDigits rest (acc * 10 + (c.toNat - 48)) true
    else if seen then some (acc, c :: rest) else none

mutual

/-- Fuel-based recursive-descent parser for one JSON value; returns the value
and the unconsumed input.  Fractions, exponents and `\u` escapes are outside
the model and fail to parse. -/
def parseVal : Nat → List Char → Option (Json × List Char)
  | 0, _ => none
  | fuel + 1, cs =>
    match skipWs cs with
    | [] => none
    | c :: rest =>
      if c == '"' then
        match parseStringBody rest [] with
        | some (s, rest2) => some (Json.str s, rest2)
        | none => none
      else if c == '[' then parseArrItems fuel rest true
      else if c == '\x7b' then parseObjItems fuel rest true
      else if c == '-' then
        match parseDigits rest 0 false with
        | some (n, rest2) => some (Json.num (-(n : Int)), rest2)
        | none => none
      else if isDigitChar c then
        match parseDigits (c :: rest) 0 false with
        | some (n, rest2) => some (Json.num (n : Int), rest2)
        | none => none
      else
        match c :: rest with
        | 'n' :: 'u' :: 'l' :: 'l' :: rest2 => some (Json.null, rest2)
        | 't' :: 'r' :: 'u' :: 'e' :: rest2 => some (Json.bool true, rest2)
        | 'f' :: 'a' :: 'l' :: 's' :: 'e' :: rest2 => some (Json.bool false, rest2)
        | _ => none

/-- Parse the items of a JSON array after the opening bracket.  `first` is
true when no item has been consumed yet (so `]` may follow immediately). -/
def parseArrItems : Nat → List Char → Bool → Option (Json × List Char)
  | 0, _, _ => none
  | fuel + 1, cs, first =>
    match skipWs cs with
    | [] => none
    | c :: rest =>
      if first && c == ']' then some (Json.arr [], rest)
      else
        match parseVal fuel (c :: rest) with
        | none => none
        | some (v, rest2) =>
          match skipWs rest2 with
          | ',' :: rest3 =>
            match parseArrItems fuel rest3 false with
            | some (Json.arr vs, rest4) => some (Json.arr (v :: vs), rest4)
            | _ => none
          | ']' :: rest3 => some (Json.arr [v], rest3)
          | _ => none

/-- Parse the fields of a JSON object after the opening brace. -/
def parseObjItems : Nat → List Char → Bool → Option (Json × List Char)
  | 0, _, _ => none
  | fuel + 1, cs, first =>
    match skipWs cs with
    | [] => none
    | c :: rest =>
      if first && c == '\x7d' then some (Json.obj [], rest)
      else if c == '"' then
        match parseStringBody rest [] with
        | none => none
        | some (k, rest2) =>
          match skipWs rest2 with
          | ':' :: rest3 =>
            match parseVal fuel rest3 with
            | none => none
            | some (v, rest4) =>
              match skipWs rest4 with
              | ',' :: rest5 =>
                match parseObjItems fuel rest5 false with
                | some (Json.obj fs, rest6) => some (Json.obj ((k, v) :: fs), rest6)
                | _ => none
              | '\x7d' :: rest5 => some (Json.obj [(k, v)], rest5)
              | _ => none
          | _ => none
      else none

end

/-- Model of JavaScript `JSON.parse`: parse one value and require only
whitespace to remain.  `none` models a thrown `SyntaxError`. -/
def jsonParse (s : String) : Option Json :=
  match parseVal (s.length + 1) s.data with
  | some (j, rest) => if (skipWs rest).isEmpty then some j else none
  | none => none

/-!  ### Destination validator (`validateServerUrl`, src/index.ts lines 64-92)  -/

/-- Result of `new URL(url)` as used by the validator: the scheme with its
trailing colon (`parsed.protocol`) and the host (`parsed.hostname`). -/
structure URLParts where
  protocol : String
  hostname : String
deriving DecidableEq

/-- Split a character list at the first `:`, requiring it to be followed by
`//`; returns the scheme and the remainder after `://`. -/
def splitSchemeAux : List Char → Option (List Char × List Char)
  | [] => none
  | c :: rest =>
    if c == ':' then
      match rest with
      | c1 :: c2 :: rest2 =>
        if c1 == '/' && c2 == '/' then some ([], rest2) else none
      | _ => none
    else
      match splitSchemeAux rest with
      | some (scheme, rest2) => some (c :: scheme, rest2)
      | none => none

/-- Characters that terminate the host portion of a URL. -/
def hostChar (c : Char) : Bool := !(c == '/' || c == ':' || c == '?' || c == '#')

/-- Model of the platform WHATWG URL parser (`new URL`) restricted to URLs of
the shape `scheme://host...`: the scheme is a nonempty run of letters before
`://`, and the hostname runs until `/`, `:`, `?` or `#`.  Bracketed IPv6
hosts and scheme-relative forms are outside the model and fail to parse. -/
def parseURL (url : String) : Option URLParts :=
  match splitSchemeAux url.data with
  | none => none
  | some (scheme, rest) =>
    if scheme.isEmpty || !(scheme.all Char.isAlpha) then none
    else
      let host := rest.takeWhile hostChar
      if host.isEmpty then none
      else some ⟨String.mk (scheme ++ [':']), String.mk host⟩

/-- ASCII model of JavaScript `toLowerCase` on hostname characters. -/
def jsLower (c : Char) : Char :=
  if 65 ≤ c.toNat ∧ c.toNat ≤ 90 then Char.ofNat (c.toNat + 32) else c

/-- Model of `hostname.toLowerCase()`. -/
def toLowerChars (l : List Char) : List Char := l.map jsLower

/-- Model of the test of the regular expression
`^172\.(1[6-9]|2\d|3[01])\.` from the validator. -/
def regex172 : List Char → Bool
  | '1' :: '7' :: '2' :: '.' :: c1 :: c2 :: '.' :: _ =>
    (c1 == '1' && 54 ≤ c2.toNat && c2.toNat ≤ 57) ||
    (c1 == '2' && isDigitChar c2) ||
    (c1 == '3' && (c2 == '0' || c2 == '1'))
  | _ => false

/-- Model of `host.endsWith(suffix)`. -/
def endsWithChars (l suf : List Char) : Bool := List.isSuffixOf suf l

/-- Model of `host.startsWith(p)`. -/
def startsWithChars (p l : List Char) : Bool := List.isPrefixOf p l

/-- The disjunction of host checks in `validateServerUrl` (lines 77-87 of the
source), over the lowercased hostname. -/
def privateHostCheck (host : List Char) : Bool :=
  host == "localhost".data ||
  host == "127.0.0.1".data ||
  host == "0.0.0.0".data ||
  host == "[::1]".data ||
  host == "169.254.169.254".data ||
  endsWithChars host ".internal".data ||
  startsWithChars "10.".data host ||
  startsWithChars "192.168.".data host ||
  regex172 host

/-- `validateServerUrl` (src/index.ts lines 64-92): returns an error string
for an invalid or internal/private destination, `none` for a valid one. -/
def validateServerUrl (url : String) : Option String :=
  match parseURL url with
  | none => some "--server-url is not a valid URL"
  | some parsed =>
    if ¬(parsed.protocol = "https:") ∧ ¬(parsed.protocol = "http:") then
      some "--server-url must use http or https"
    else
      let host := toLowerChars parsed.hostname.data
      if privateHostCheck host then
        some "--server-url must not point to internal/private addresses"
      else
        none

/-- Decimal digit characters of a natural number, most significant first
(model of JavaScript decimal number-to-string rendering); fuel-based so that
it reduces by `rfl` on concrete inputs. -/
def natDigitsAux : Nat → Nat → List Char
  | 0, _ => []
  | fuel + 1, n =>
    if n = 0 then []
    else natDigitsAux fuel (n / 10) ++ [Char.ofNat (48 + n % 10)]

/-- Decimal character rendering of a natural number. -/
def natChars (n : Nat) : List Char :=
  if n = 0 then ['0'] else natDigitsAux (n + 1) n

/-- The host character list `172.a.b.c` of a dotted-quad address. -/
def quadHost (a b c : Nat) : List Char :=
  '1' :: '7' :: '2' :: '.' :: (natChars a ++ '.' :: (natChars b ++ '.' :: natChars c))

/-- The URL string `http://172.a.b.c/x`. -/
def quadUrl (a b c : Nat) : String :=
  String.mk ("http://".data ++ quadHost a b c ++ "/x".data)

/-!  ### Stream reassembly (`handleSSEStream`, src/index.ts lines 260-329)  -/

/-- A JSON-RPC request id (`number | string` in the source). -/
inductive RpcId where
  | num (n : Int)
  | str (s : String)
deriving DecidableEq

/-- JavaScript strict equality `jsonValue === requestId`. -/
def idEquals (j : Json) : RpcId → Bool
  | .num n => match j with | .num m => m == n | _ => false
  | .str s => match j with | .str t => t == s | _ => false

/-- The check `message.id === request.id`. -/
def msgIdMatches (msg : Json) (reqId : RpcId) : Bool :=
  match msg.getField "id" with
  | some j => idEquals j reqId
  | none => false

/-- The check `message.method === "notifications/progress"`. -/
def methodIsProgress (msg : Json) : Bool :=
  match msg.getField "method" with
  | some (.str s) => s == "notifications/progress"
  | _ => false

/-- The check `message.jsonrpc === "2.0"`. -/
def jsonrpcIs20 (msg : Json) : Bool :=
  match msg.getField "jsonrpc" with
  | some (.str s) => s == "2.0"
  | _ => false

/-- Reassembly state: notifications relayed so far (each carrying
`message.params`, `none` for an absent field) and the captured terminal
result. -/
structure SSEState where
  relayed : List (Option Json)
  finalResult : Option Json

/-- ASCII model of the whitespace set of JavaScript `String.prototype.trim`. -/
def isTrimWs (c : Char) : Bool :=
  c == ' ' || c == '\t' || c == '\n' || c == '\r' || Char.ofNat 12 == c || Char.ofNat 11 == c

/-- Model of `data.trim()`. -/
def trimChars (l : List Char) : List Char :=
  ((l.dropWhile isTrimWs).reverse.dropWhile isTrimWs).reverse

/-- Processing of one complete line inside the reassembly loop (source lines
285-318): a `data: ` line is stripped and trimmed; empty payloads and
unparsable payloads are skipped; a progress notification is relayed; a
message with `jsonrpc === "2.0"` and a matching id is stored as the terminal
result (an unconditional overwrite). -/
def processSSELine (reqId : RpcId) (st : SSEState) (line : List Char) : SSEState :=
  if startsWithChars "data: ".data line then
    let data := trimChars (line.drop 6)
    if data.isEmpty then st
    else
      match jsonParse (String.mk data) with
      | none => st
      | some message =>
        if methodIsProgress message then
          { st with relayed := st.relayed ++ [message.getField "params"] }
        else if jsonrpcIs20 message && msgIdMatches message reqId then
          { st with finalResult := some message }
        else st
  else st

/-- Split a character list on newline characters, JavaScript
`buffer.split("\n")`: always returns at least one (possibly empty) part. -/
def splitNl : List Char → List (List Char)
  | [] => [[]]
  | c :: rest =>
    if c == '\n' then [] :: splitNl rest
    else
      match splitNl rest with
      | h :: t => (c :: h) :: t
      | [] => [[c]]

/-- One iteration of the read loop (source lines 274-319): append the chunk
to the buffer, split on newlines, keep the final (possibly incomplete) part
as the new buffer, and process every complete line. -/
def feedChunk (reqId : RpcId) (acc : SSEState × List Char) (chunk : List Char) :
    SSEState × List Char :=
  let parts := splitNl (acc.2 ++ chunk)
  let lines := parts.dropLast
  let newBuf := (parts.getLast?).getD []
  (lines.foldl (processSSELine reqId) acc.1, newBuf)

/-- `handleSSEStream` over an abstract body: `none` models a response with no
readable body; otherwise the chunk sequence is folded through the read loop
(the trailing unterminated buffer is never processed, as in the source) and
the captured terminal result, if any, is returned together with the relayed
notifications.  `Except.error` models a thrown exception. -/
def handleSSEStream (body : Option (List (List Char))) (reqId : RpcId) :
    List (Option Json) × Except String Json :=
  match body with
  | none => ([], .error "No response body")
  | some chunks =>
    let st := (chunks.foldl (feedChunk reqId) (⟨[], none⟩, [])).1
    match st.finalResult with
    | none => (st.relayed, .error "No final result received from SSE stream")
    | some r => (st.relayed, .ok r)

/-!  ### Request forwarding (`forwardRequest`, src/index.ts lines 209-258)  -/

/-- The outbound JSON-RPC request built by the handlers. -/
structure JsonRpcRequest where
  jsonrpc : String
  id : RpcId
  method : String
  params : Json

/-- The observable outcome of the `fetch` call: the fields of the settled
`Response` that `forwardRequest` reads.  `textResult` is the outcome of
`response.text()` (which can itself reject); `body` is the chunk sequence of
the readable stream, `none` when the response has no body. -/
structure HttpResponse where
  status : Nat
  statusText : String
  contentType : Option String
  textResult : Except String String
  body : Option (List (List Char))

/-- Either the fetch promise rejected (network failure, timeout abort — the
carried string is the exception message) or it resolved to a response. -/
inductive FetchResult where
  | failure (msg : String)
  | success (resp : HttpResponse)

/-- `response.ok`: status in the 200-299 range. -/
def responseOk (r : HttpResponse) : Bool := 200 ≤ r.status && r.status < 300

/-- Substring containment, `haystack.includes(needle)`. -/
def containsSub (l sub : List Char) : Bool :=
  if List.isPrefixOf sub l then true
  else
    match l with
    | [] => false
    | _ :: rest => containsSub rest sub

/-- `MAX_RESPONSE_SIZE` (src/index.ts line 59). -/
def MAX_RESPONSE_SIZE : Nat := 10 * 1024 * 1024

/-- Placeholder for the platform `SyntaxError` message thrown by `JSON.parse`
on malformed input; the bridge only propagates it verbatim. -/
def jsonParseErrMsg : String := "Unexpected token in JSON"

/-- The error body text used for a non-success status:
`await response.text().catch(() => response.statusText)`. -/
def httpErrBodyText (resp : HttpResponse) : String :=
  match resp.textResult with
  | .ok t => t
  | .error _ => resp.statusText

/-- The `try` block of `forwardRequest` (source lines 212-241): produces the
relayed notifications and either the parsed response document or the thrown
error message. -/
def forwardRequestBody (req : JsonRpcRequest) (fr : FetchResult) :
    List (Option Json) × Except String Json :=
  match fr with
  | .failure msg => ([], .error msg)
  | .success resp =>
    if responseOk resp = false then
      ([], .error ("HTTP " ++ toString resp.status ++ ": " ++
        String.mk ((httpErrBodyText resp).data.take 200)))
    else
      let ct := resp.contentType.getD ""
      if containsSub ct.data "text/event-stream".data then
        handleSSEStream resp.body req.id
      else
        match resp.textResult with
        | .error msg => ([], .error msg)
        | .ok text =>
          if text.length > MAX_RESPONSE_SIZE then
            ([], .error "Response exceeded maximum allowed size")
          else
            match jsonParse text with
            | none => ([], .error jsonParseErrMsg)
            | some j => ([], .ok j)

/-- Render an `RpcId` back into a JSON value. -/
def rpcIdToJson : RpcId → Json
  | .num n => .num n
  | .str s => .str s

/-- The failure envelope synthesized by the `catch` block of
`forwardRequest` (source lines 249-256). -/
def errorEnvelope (id : RpcId) (msg : String) : Json :=
  Json.obj [("jsonrpc", Json.str "2.0"), ("id", rpcIdToJson id),
    ("error", Json.obj [("code", Json.num (-32603)), ("message", Json.str msg)])]

/-- What `forwardRequest` delivers: the relayed progress notifications (side
effects toward the local transport, in order) and the returned
`JsonRpcResponse` value. -/
structure ForwardOutcome where
  notifications : List (Option Json)
  response : Json

/-- `forwardRequest` (source lines 209-258): the `try` body with every thrown
error converted by the `catch` block into a synthesized failure envelope.
Total by construction — the model of "never raises". -/
def forwardRequest (req : JsonRpcRequest) (fr : FetchResult) : ForwardOutcome :=
  match forwardRequestBody req fr with
  | (notifs, .ok j) => ⟨notifs, j⟩
  | (notifs, .error msg) => ⟨notifs, errorEnvelope req.id msg⟩

/-!  ### Orchestrator handlers (`setupHandlers`, src/index.ts lines 154-207)  -/

/-- JavaScript `String(v)` on a JSON value, as used when a value is spliced
into a template literal (`[object Object]` for objects, comma-joined
elements for arrays with `null` rendered empty). -/
def jsToStr : Json → String
  | .null => "null"
  | .bool true => "true"
  | .bool false => "false"
  | .num n => toString n
  | .str s => s
  | .obj _ => "[object Object]"
  | .arr xs =>
    String.intercalate "," (xs.attach.map fun p =>
      match p with
      | ⟨Json.null, _⟩ => ""
      | ⟨v, hv⟩ => jsToStr v)
decreasing_by
  simp_wf
  have h := List.sizeOf_lt_of_mem hv
  omega

/-- Splicing a possibly-absent value into a template literal:
`undefined` renders as the string `undefined`. -/
def jsTemplate : Option Json → String
  | none => "undefined"
  | some v => jsToStr v

/-- The reply mapping of the invoke-capability handler (source lines
193-205): a truthy `error` field on the forwarded response yields a local
reply whose content is one text block `Error: <message>`; otherwise the
remote `result` is passed through (`none` models `undefined`). -/
def callToolHandlerReply (response : Json) : Option Json :=
  match response.getField "error" with
  | some e =>
    if e.truthy then
      some (Json.obj [("content", Json.arr [Json.obj [("type", Json.str "text"),
        ("text", Json.str ("Error: " ++ jsTemplate (e.getField "message")))]])])
    else response.getField "result"
  | none => response.getField "result"

/-- The cross-call mutable state of a bridge instance: the
`requestIdCounter` field (source line 134), zero on construction. -/
structure BridgeState where
  requestIdCounter : Nat

/-- A freshly constructed bridge. -/
def freshBridge : BridgeState := ⟨0⟩

/-- One local operation arriving at the bridge.  For invoke-capability,
`progressToken` is the resolved token (the caller-supplied one, or the
generated UUID when absent — source line 177-178). -/
inductive BridgeCall where
  | listTools
  | callTool (name : String) (args : Json) (progressToken : Json)

/-- Outbound envelope construction shared by both handlers (source lines
157-162 and 186-191): the id is `++this.requestIdCounter`, incremented once
per outbound envelope. -/
def buildOutbound (st : BridgeState) (c : BridgeCall) : JsonRpcRequest × BridgeState :=
  let newId : Nat := st.requestIdCounter + 1
  match c with
  | .listTools =>
    ({ jsonrpc := "2.0", id := .num (newId : Int), method := "tools/list",
       params := Json.obj [] }, ⟨newId⟩)
  | .callTool name args tok =>
    ({ jsonrpc := "2.0", id := .num (newId : Int), method := "tools/call",
       params := Json.obj [("name", Json.str name), ("arguments", args),
         ("_meta", Json.obj [("progressToken", tok)])] }, ⟨newId⟩)

/-- The outbound envelopes produced by a sequence of local calls handled
sequentially on one bridge instance. -/
def runCalls : BridgeState → List BridgeCall → List JsonRpcRequest × BridgeState
  | st, [] => ([], st)
  | st, c :: rest =>
    let (req, st2) := buildOutbound st c
    let (reqs, st3) := runCalls st2 rest
    (req :: reqs, st3)

/-!  ### Supporting lemmas  -/

theorem natDigitsAux_digits (fuel : Nat) : ∀ n c, c ∈ natDigitsAux fuel n → isDigitChar c = true := by
  induction fuel with
  | zero => intro n c h; simp [natDigitsAux] at h
  | succ fuel ih =>
    intro n c h
    by_cases hn : n = 0
    · simp [natDigitsAux, hn] at h
    · simp only [natDigitsAux, if_neg hn, List.mem_append, List.mem_singleton] at h
      rcases h with h | h
      · exact ih _ _ h
      · subst h
        have hlt : n % 10 < 10 := Nat.mod_lt _ (by omega)
        set r := n % 10 with hr
        interval_cases r <;> decide

theorem natChars_digits (n : Nat) : ∀ c, c ∈ natChars n → isDigitChar c = true := by
  intro c h
  by_cases hn : n = 0
  · simp [natChars, hn] at h
    subst h; decide
  · simp only [natChars, if_neg hn] at h
    exact natDigitsAux_digits _ _ _ h

theorem digit_hostChar (c : Char) (h : isDigitChar c = true) : hostChar c = true := by
  simp only [isDigitChar, Bool.and_eq_true, decide_eq_true_eq] at h
  simp only [hostChar, Bool.or_eq_true, Bool.not_eq_true', Bool.or_eq_false_iff,
    beq_eq_false_iff_ne, ne_eq]
  refine ⟨⟨⟨?_, ?_⟩, ?_⟩, ?_⟩ <;> (rintro rfl; revert h; decide)

theorem jsLower_digit (c : Char) (h : isDigitChar c = true) : jsLower c = c := by
  simp only [isDigitChar, Bool.and_eq_true, decide_eq_true_eq] at h
  have hno : ¬(65 ≤ c.toNat ∧ c.toNat ≤ 90) := by omega
  simp [jsLower, hno]

theorem map_jsLower_of_digits (l : List Char) (h : ∀ c ∈ l, isDigitChar c = true) :
    l.map jsLower = l := by
  induction l with
  | nil => rfl
  | cons a l ih =>
    simp only [List.map_cons]
    rw [jsLower_digit a (h a (by simp)), ih (fun c hc => h c (by simp [hc]))]

theorem takeWhile_append_all (p : Char → Bool) (l1 l2 : List Char)
    (h : ∀ c ∈ l1, p c = true) :
    (l1 ++ l2).takeWhile p = l1 ++ l2.takeWhile p := by
  induction l1 with
  | nil => rfl
  | cons a l ih =>
    simp only [List.cons_append, List.takeWhile_cons, h a (by simp), if_true]
    rw [ih (fun c hc => h c (by simp [hc]))]

theorem quadHost_hostChars (a b c : Nat) : ∀ ch ∈ quadHost a b c, hostChar ch = true := by
  intro ch h
  simp only [quadHost, List.mem_cons, List.mem_append] at h
  rcases h with rfl | rfl | rfl | rfl | h | rfl | h | rfl | h
  · decide
  · decide
  · decide
  · decide
  · exact digit_hostChar _ (natChars_digits a _ h)
  · decide
  · exact digit_hostChar _ (natChars_digits b _ h)
  · decide
  · exact digit_hostChar _ (natChars_digits c _ h)

theorem parseURL_quad (a b c : Nat) :
    parseURL (quadUrl a b c) = some ⟨"http:", String.mk (quadHost a b c)⟩ := by
  have hsp : splitSchemeAux (quadUrl a b c).data =
      some ("http".data, quadHost a b c ++ "/x".data) := rfl
  have htw : (quadHost a b c ++ "/x".data).takeWhile hostChar = quadHost a b c := by
    rw [takeWhile_append_all hostChar _ _ (quadHost_hostChars a b c),
      show List.takeWhile hostChar "/x".data = [] from rfl, List.append_nil]
  simp only [parseURL, hsp, htw]
  have hne : (quadHost a b c).isEmpty = false := by simp [quadHost]
  simp [hne, quadHost]

theorem validateServerUrl_quad (a b c : Nat) (h16 : 16 ≤ a) (h31 : a ≤ 31) :
    validateServerUrl (quadUrl a b c) =
      some "--server-url must not point to internal/private addresses" := by
  have hreg : regex172 (quadHost a b c) = true := by
    interval_cases a <;> rfl
  have hlower : toLowerChars (String.mk (quadHost a b c)).data = quadHost a b c := by
    show List.map jsLower (quadHost a b c) = quadHost a b c
    simp only [quadHost, List.map_cons, List.map_append,
      map_jsLower_of_digits _ (natChars_digits a),
      map_jsLower_of_digits _ (natChars_digits b),
      map_jsLower_of_digits _ (natChars_digits c)]
    rfl
  simp only [validateServerUrl, parseURL_quad a b c]
  rw [if_neg (by simp)]
  simp only [hlower]
  simp [privateHostCheck, hreg]

/-!  ### Claim theorems  -/

/-- C2: `validateServerUrl` returns a failure reason for
`http://localhost/x`, `http://127.0.0.1/x`, `http://169.254.169.254/x`,
`http://10.0.0.1/x`, `http://192.168.1.1/x`, every address
`http://172.a.b.c/x` with `16 ≤ a ≤ 31`, and `ftp://host/x`; it accepts
`https://api.example.com/mcp`, `http://172.15.0.1/x` and
`http://172.32.0.1/x` — the `172.16.0.0`–`172.31.255.255` range is rejected
while `172.15.x.x` and `172.32.x.x` are accepted. -/
theorem validateServerUrl_vectors_C2 :
    (validateServerUrl "http://localhost/x").isSome = true ∧
    (validateServerUrl "http://127.0.0.1/x").isSome = true ∧
    (validateServerUrl "http://169.254.169.254/x").isSome = true ∧
    (validateServerUrl "http://10.0.0.1/x").isSome = true ∧
    (validateServerUrl "http://192.168.1.1/x").isSome = true ∧
    (∀ a b c : Nat, 16 ≤ a → a ≤ 31 → b ≤ 255 → c ≤ 255 →
      (validateServerUrl (quadUrl a b c)).isSome = true) ∧
    (validateServerUrl "ftp://host/x").isSome = true ∧
    validateServerUrl "https://api.example.com/mcp" = none ∧
    validateServerUrl "http://172.15.0.1/x" = none ∧
    validateServerUrl "http://172.32.0.1/x" = none := by
  refine ⟨by decide, by decide, by decide, by decide, by decide, ?_,
    by decide, by decide, by decide, by decide⟩
  intro a b c h16 h31 _ _
  rw [validateServerUrl_quad a b c h16 h31]
  rfl

/-- Witness for C2: the universally quantified rejection applied to the
concrete address 172.20.5.255. -/
theorem validateServerUrl_vectors_C2_witness :
    (validateServerUrl (quadUrl 20 5 255)).isSome = true :=
  validateServerUrl_vectors_C2.2.2.2.2.2.1 20 5 255
    (by decide) (by decide) (by decide) (by decide)

/-- C10: the validator rejects by string prefix of the lowercased hostname,
not by parsed IP address — every URL whose parsed hostname lowercases to a
string beginning with `10.` or `192.168.` is rejected with the
internal/private reason, including the public DNS name
`10.example.com`. -/
theorem validateServerUrl_prefix_C10 :
    (∀ (url : String) (parts : URLParts), parseURL url = some parts →
      (parts.protocol = "http:" ∨ parts.protocol = "https:") →
      (startsWithChars "10.".data (toLowerChars parts.hostname.data) = true ∨
       startsWithChars "192.168.".data (toLowerChars parts.hostname.data) = true) →
      validateServerUrl url =
        some "--server-url must not point to internal/private addresses") ∧
    validateServerUrl "http://10.example.com/x" =
      some "--server-url must not point to internal/private addresses" := by
  constructor
  · intro url parts hp hproto hpre
    simp only [validateServerUrl, hp]
    rw [if_neg (by rcases hproto with h | h <;> simp [h])]
    have hcheck : privateHostCheck (toLowerChars parts.hostname.data) = true := by
      rcases hpre with h | h <;> simp [privateHostCheck, h]
    simp [hcheck]
  · decide

/-- Witness for C10: the universal part applied to `http://10.example.com/x`
itself. -/
theorem validateServerUrl_prefix_C10_witness :
    validateServerUrl "http://10.example.com/x" =
      some "--server-url must not point to internal/private addresses" :=
  validateServerUrl_prefix_C10.1 "http://10.example.com/x"
    ⟨"http:", "10.example.com"⟩ (by decide) (Or.inl (by decide))
    (Or.inl (by decide))

/-- C4: `forwardRequest` is total — for every request and every fetch
outcome it returns a `JsonRpcResponse` value: either the `try` body's
document unchanged, or, for every thrown failure, a synthesized envelope
whose `error` member carries the numeric code -32603 and the failure
message. -/
theorem forwardRequest_never_raises_C4 :
    ∀ (req : JsonRpcRequest) (fr : FetchResult),
      (∃ j, forwardRequestBody req fr = ((forwardRequest req fr).notifications, Except.ok j) ∧
        (forwardRequest req fr).response = j) ∨
      (∃ msg, forwardRequestBody req fr = ((forwardRequest req fr).notifications, Except.error msg) ∧
        (forwardRequest req fr).response = errorEnvelope req.id msg ∧
        (errorEnvelope req.id msg).getField "error" =
          some (Json.obj [("code", Json.num (-32603)), ("message", Json.str msg)])) := by
  intro req fr
  rcases h : forwardRequestBody req fr with ⟨notifs, e⟩
  cases e with
  | ok j =>
    exact Or.inl ⟨j, by simp [forwardRequest, h], by simp [forwardRequest, h]⟩
  | error msg =>
    exact Or.inr ⟨msg, by simp [forwardRequest, h], by simp [forwardRequest, h], rfl⟩

/-- C9: every failure envelope synthesized by `forwardRequest` carries
`jsonrpc` "2.0", the id of the outbound request, error code -32603 and the
failure message, for every request and failure cause. -/
theorem forwardRequest_error_envelope_C9 :
    ∀ (req : JsonRpcRequest) (fr : FetchResult) (ns : List (Option Json)) (msg : String),
      forwardRequestBody req fr = (ns, Except.error msg) →
      (forwardRequest req fr).response.getField "jsonrpc" = some (Json.str "2.0") ∧
      (forwardRequest req fr).response.getField "id" = some (rpcIdToJson req.id) ∧
      ((forwardRequest req fr).response.getField "error").bind
        (fun e => e.getField "code") = some (Json.num (-32603)) ∧
      ((forwardRequest req fr).response.getField "error").bind
        (fun e => e.getField "message") = some (Json.str msg) := by
  intro req fr ns msg h
  have hfr : forwardRequest req fr = ⟨ns, errorEnvelope req.id msg⟩ := by
    simp [forwardRequest, h]
  rw [hfr]
  exact ⟨rfl, rfl, rfl, rfl⟩

/-- Witness for C9: a network failure on a concrete request. -/
theorem forwardRequest_error_envelope_C9_witness :
    (forwardRequest ⟨"2.0", .num 7, "tools/list", Json.obj []⟩
        (.failure "fetch failed")).response.getField "jsonrpc" = some (Json.str "2.0") ∧
    (forwardRequest ⟨"2.0", .num 7, "tools/list", Json.obj []⟩
        (.failure "fetch failed")).response.getField "id" = some (rpcIdToJson (.num 7)) ∧
    ((forwardRequest ⟨"2.0", .num 7, "tools/list", Json.obj []⟩
        (.failure "fetch failed")).response.getField "error").bind
      (fun e => e.getField "code") = some (Json.num (-32603)) ∧
    ((forwardRequest ⟨"2.0", .num 7, "tools/list", Json.obj []⟩
        (.failure "fetch failed")).response.getField "error").bind
      (fun e => e.getField "message") = some (Json.str "fetch failed") :=
  forwardRequest_error_envelope_C9 ⟨"2.0", .num 7, "tools/list", Json.obj []⟩
    (.failure "fetch failed") [] "fetch failed" rfl

/-- C6: every non-success HTTP status yields a failure envelope whose
message carries the numeric status code and at most the first 200
characters of the body text. -/
theorem forwardRequest_status_truncation_C6 :
    ∀ (req : JsonRpcRequest) (resp : HttpResponse),
      responseOk resp = false →
      forwardRequest req (.success resp) = ⟨[], errorEnvelope req.id
        ("HTTP " ++ toString resp.status ++ ": " ++
          String.mk ((httpErrBodyText resp).data.take 200))⟩ ∧
      ((httpErrBodyText resp).data.take 200).length ≤ 200 := by
  intro req resp hok
  constructor
  · simp [forwardRequest, forwardRequestBody, hok]
  · rw [List.length_take]
    exact Nat.min_le_left _ _

/-- Witness for C6: a 404 response with a short error body. -/
theorem forwardRequest_status_truncation_C6_witness :
    forwardRequest ⟨"2.0", .num 3, "tools/call", Json.obj []⟩
      (.success ⟨404, "Not Found", some "application/json", .ok "missing", none⟩) =
      ⟨[], errorEnvelope (.num 3)
        ("HTTP " ++ toString (404 : Nat) ++ ": " ++
          String.mk ((httpErrBodyText
            ⟨404, "Not Found", some "application/json", .ok "missing", none⟩).data.take 200))⟩ ∧
    ((httpErrBodyText
        ⟨404, "Not Found", some "application/json", .ok "missing", none⟩).data.take 200).length ≤ 200 :=
  forwardRequest_status_truncation_C6 ⟨"2.0", .num 3, "tools/call", Json.obj []⟩
    ⟨404, "Not Found", some "application/json", .ok "missing", none⟩ (by decide)

/-- C7: on the non-stream path, a body of at most 10 MiB
(`MAX_RESPONSE_SIZE`) is handed to the JSON parser, while a body over the
cap is rejected with the size failure, independent of any parse. -/
theorem forwardRequest_size_cap_C7 :
    ∀ (req : JsonRpcRequest) (resp : HttpResponse) (text : String),
      responseOk resp = true →
      containsSub (resp.contentType.getD "").data "text/event-stream".data = false →
      resp.textResult = Except.ok text →
      (text.length ≤ MAX_RESPONSE_SIZE →
        forwardRequestBody req (.success resp) =
          (match jsonParse text with
           | none => ([], Except.error jsonParseErrMsg)
           | some j => ([], Except.ok j))) ∧
      (text.length > MAX_RESPONSE_SIZE →
        forwardRequestBody req (.success resp) =
          ([], Except.error "Response exceeded maximum allowed size")) := by
  intro req resp text hok hct htext
  constructor
  · intro hle
    have hgt : ¬ text.length > MAX_RESPONSE_SIZE := by omega
    simp [forwardRequestBody, hok, hct, htext, hgt]
  · intro hgt
    simp [forwardRequestBody, hok, hct, htext, hgt]

/-- Witness for C7: a small JSON body parses; a body one character over the
cap is rejected by size. -/
theorem forwardRequest_size_cap_C7_witness :
    forwardRequestBody ⟨"2.0", .num 4, "tools/call", Json.obj []⟩
      (.success ⟨200, "OK", some "application/json", .ok "5", none⟩) =
      (match jsonParse "5" with
       | none => ([], Except.error jsonParseErrMsg)
       | some j => ([], Except.ok j)) ∧
    forwardRequestBody ⟨"2.0", .num 4, "tools/call", Json.obj []⟩
      (.success ⟨200, "OK", some "application/json",
        .ok (String.mk (List.replicate (MAX_RESPONSE_SIZE + 1) 'a')), none⟩) =
      ([], Except.error "Response exceeded maximum allowed size") := by
  constructor
  · exact (forwardRequest_size_cap_C7 ⟨"2.0", .num 4, "tools/call", Json.obj []⟩
      ⟨200, "OK", some "application/json", .ok "5", none⟩ "5"
      (by decide) (by decide) rfl).1 (by decide)
  · refine (forwardRequest_size_cap_C7 ⟨"2.0", .num 4, "tools/call", Json.obj []⟩
      ⟨200, "OK", some "application/json",
        .ok (String.mk (List.replicate (MAX_RESPONSE_SIZE + 1) 'a')), none⟩
      (String.mk (List.replicate (MAX_RESPONSE_SIZE + 1) 'a'))
      (by decide) (by decide) rfl).2 ?_
    show (String.mk (List.replicate (MAX_RESPONSE_SIZE + 1) 'a')).length > MAX_RESPONSE_SIZE
    rw [show (String.mk (List.replicate (MAX_RESPONSE_SIZE + 1) 'a')).length =
      (List.replicate (MAX_RESPONSE_SIZE + 1) 'a').length from rfl, List.length_replicate]
    omega

/-- C5: for every forwarded response carrying a (truthy) remote failure with
a string message, the invoke-capability handler returns a successful local
reply whose content is a single text block reading `Error: ` followed by the
remote message. -/
theorem callTool_error_reply_C5 :
    ∀ (response e : Json) (msg : String),
      response.getField "error" = some e →
      e.truthy = true →
      e.getField "message" = some (Json.str msg) →
      callToolHandlerReply response =
        some (Json.obj [("content", Json.arr [Json.obj [("type", Json.str "text"),
          ("text", Json.str ("Error: " ++ msg))]])]) := by
  intro response e msg he htr hmsg
  simp [callToolHandlerReply, he, htr, hmsg, jsTemplate, jsToStr]

/-- Witness for C5: the fixture failure envelope with message
`Internal server error`. -/
theorem callTool_error_reply_C5_witness :
    callToolHandlerReply (Json.obj [("jsonrpc", Json.str "2.0"), ("id", Json.num 2),
        ("error", Json.obj [("code", Json.num (-32603)),
          ("message", Json.str "Internal server error")])]) =
      some (Json.obj [("content", Json.arr [Json.obj [("type", Json.str "text"),
        ("text", Json.str ("Error: " ++ "Internal server error"))]])]) :=
  callTool_error_reply_C5
    (Json.obj [("jsonrpc", Json.str "2.0"), ("id", Json.num 2),
      ("error", Json.obj [("code", Json.num (-32603)),
        ("message", Json.str "Internal server error")])])
    (Json.obj [("code", Json.num (-32603)),
      ("message", Json.str "Internal server error")])
    "Internal server error" rfl rfl rfl

theorem buildOutbound_id (st : BridgeState) (c : BridgeCall) :
    (buildOutbound st c).1.id = RpcId.num ((st.requestIdCounter : Int) + 1) ∧
    (buildOutbound st c).2 = ⟨st.requestIdCounter + 1⟩ := by
  cases c <;> simp [buildOutbound]

theorem runCalls_id_get (cs : List BridgeCall) :
    ∀ (n k : Nat) (hk : k < (runCalls ⟨n⟩ cs).1.length),
      ((runCalls ⟨n⟩ cs).1.get ⟨k, hk⟩).id = RpcId.num ((n : Int) + k + 1) := by
  induction cs with
  | nil => intro n k hk; simp [runCalls] at hk
  | cons c rest ih =>
    intro n k hk
    cases c with
    | listTools =>
      cases k with
      | zero => simp [runCalls, buildOutbound]
      | succ k =>
        have := ih (n + 1) k (by simpa [runCalls, buildOutbound] using hk)
        simpa [runCalls, buildOutbound] using this.trans (by push_cast; ring_nf)
    | callTool name args tok =>
      cases k with
      | zero => simp [runCalls, buildOutbound]
      | succ k =>
        have := ih (n + 1) k (by simpa [runCalls, buildOutbound] using hk)
        simpa [runCalls, buildOutbound] using this.trans (by push_cast; ring_nf)

/-- C8: on one bridge instance the correlation id of each outbound envelope
is strictly greater than that of every envelope sent before it, across any
mix of enumerate-capabilities and invoke-capability calls — ids strictly
increase and are never reused. -/
theorem correlationId_strict_mono_C8 :
    ∀ (cs : List BridgeCall) (i j : Nat) (hij : i < j)
      (hj : j < (runCalls freshBridge cs).1.length),
      ∃ a b : Int,
        ((runCalls freshBridge cs).1.get ⟨i, lt_trans hij hj⟩).id = RpcId.num a ∧
        ((runCalls freshBridge cs).1.get ⟨j, hj⟩).id = RpcId.num b ∧
        a < b := by
  intro cs i j hij hj
  refine ⟨(0 : Int) + i + 1, (0 : Int) + j + 1, ?_, ?_, by omega⟩
  · exact runCalls_id_get cs 0 i (lt_trans hij hj)
  · exact runCalls_id_get cs 0 j hj

/-- Witness for C8: two sequential calls on a fresh bridge. -/
theorem correlationId_strict_mono_C8_witness :
    ∃ a b : Int,
      ((runCalls freshBridge [BridgeCall.listTools,
        BridgeCall.callTool "search_products" (Json.obj []) (Json.str "tok")]).1.get
          ⟨0, by decide⟩).id = RpcId.num a ∧
      ((runCalls freshBridge [BridgeCall.listTools,
        BridgeCall.callTool "search_products" (Json.obj []) (Json.str "tok")]).1.get
          ⟨1, by decide⟩).id = RpcId.num b ∧
      a < b :=
  correlationId_strict_mono_C8
    [BridgeCall.listTools,
     BridgeCall.callTool "search_products" (Json.obj []) (Json.str "tok")]
    0 1 (by decide) (by decide)

/-- Concatenation of newline-terminated lines into one stream chunk. -/
def joinLines (lines : List (List Char)) : List Char :=
  lines.foldr (fun l acc => l ++ '\n' :: acc) []

theorem splitNl_append_line (l rest : List Char) (h : '\n' ∉ l) :
    splitNl (l ++ '\n' :: rest) = l :: splitNl rest := by
  induction l with
  | nil => simp [splitNl]
  | cons a l ih =>
    have ha : (a == '\n') = false := by
      simp only [beq_eq_false_iff_ne, ne_eq]
      intro hq
      exact h (hq ▸ List.mem_cons_self a l)
    have h2 : '\n' ∉ l := fun hm => h (List.mem_cons_of_mem _ hm)
    simp only [List.cons_append, splitNl, ha, Bool.false_eq_true, if_false,
      List.append_eq, ih h2]

theorem splitNl_joinLines (lines : List (List Char)) (h : ∀ l ∈ lines, '\n' ∉ l) :
    splitNl (joinLines lines) = lines ++ [[]] := by
  induction lines with
  | nil => rfl
  | cons l ls ih =>
    simp only [joinLines, List.foldr_cons]
    rw [splitNl_append_line _ _ (h l (by simp))]
    have := ih (fun x hx => h x (by simp [hx]))
    simp only [joinLines] at this
    rw [this]
    rfl

theorem feed_single_chunk (reqId : RpcId) (lines : List (List Char))
    (h : ∀ l ∈ lines, '\n' ∉ l) :
    (([joinLines lines]).foldl (feedChunk reqId) (⟨[], none⟩, [])).1 =
      lines.foldl (processSSELine reqId) ⟨[], none⟩ := by
  simp only [List.foldl_cons, List.foldl_nil, feedChunk, List.nil_append]
  rw [splitNl_joinLines lines h]
  simp [List.dropLast_concat]

theorem jsonParse_nil : jsonParse (String.mk []) = none := rfl

theorem processSSELine_progress (reqId : RpcId) (st : SSEState) (line : List Char)
    (msg : Json)
    (hs : startsWithChars "data: ".data line = true)
    (hp : jsonParse (String.mk (trimChars (line.drop 6))) = some msg)
    (hm : methodIsProgress msg = true) :
    processSSELine reqId st line =
      ⟨st.relayed ++ [msg.getField "params"], st.finalResult⟩ := by
  have hne : (trimChars (line.drop 6)).isEmpty = false := by
    rcases hemp : trimChars (line.drop 6) with _ | ⟨c, cs⟩
    · rw [hemp] at hp
      rw [jsonParse_nil] at hp
      cases hp
    · rfl
  simp only [processSSELine, hs, if_true, hne, Bool.false_eq_true, if_false, hp, hm]

theorem processSSELine_terminal (reqId : RpcId) (st : SSEState) (line : List Char)
    (msg : Json)
    (hs : startsWithChars "data: ".data line = true)
    (hp : jsonParse (String.mk (trimChars (line.drop 6))) = some msg)
    (hm : methodIsProgress msg = false)
    (hj : jsonrpcIs20 msg = true)
    (hid : msgIdMatches msg reqId = true) :
    processSSELine reqId st line = ⟨st.relayed, some msg⟩ := by
  have hne : (trimChars (line.drop 6)).isEmpty = false := by
    rcases hemp : trimChars (line.drop 6) with _ | ⟨c, cs⟩
    · rw [hemp] at hp
      rw [jsonParse_nil] at hp
      cases hp
    · rfl
  simp only [processSSELine, hs, if_true, hne, Bool.false_eq_true, if_false, hp, hm,
    hj, hid, Bool.and_self]

/-- The per-line hypotheses characterizing a progress-notification data
line and the message it carries. -/
def ProgressLine (line : List Char) (msg : Json) : Prop :=
  startsWithChars "data: ".data line = true ∧
  jsonParse (String.mk (trimChars (line.drop 6))) = some msg ∧
  methodIsProgress msg = true

theorem foldl_progress_lines (reqId : RpcId) (plines : List (List Char))
    (pmsgs : List Json) (h : List.Forall₂ ProgressLine plines pmsgs) :
    ∀ st : SSEState,
      plines.foldl (processSSELine reqId) st =
        ⟨st.relayed ++ pmsgs.map (fun m => m.getField "params"), st.finalResult⟩ := by
  induction h with
  | nil => intro st; simp
  | cons hpair hrest ih =>
    intro st
    obtain ⟨hs, hp, hm⟩ := hpair
    rw [List.foldl_cons, processSSELine_progress reqId st _ _ hs hp hm, ih]
    simp

/-- C3: for every stream of N progress-notification data lines followed by
one terminal message with the expected correlation id, reassembly relays
exactly the N progress notifications to the local transport, in stream
order (the relayed list is built during the fold, strictly before the
terminal result is produced at stream end), and returns the terminal
message — for every N, including N = 0. -/
theorem sse_progress_order_C3 :
    ∀ (reqId : RpcId) (plines : List (List Char)) (pmsgs : List Json)
      (tline : List Char) (tmsg : Json),
      (∀ l ∈ plines, '\n' ∉ l) → '\n' ∉ tline →
      List.Forall₂ ProgressLine plines pmsgs →
      startsWithChars "data: ".data tline = true →
      jsonParse (String.mk (trimChars (tline.drop 6))) = some tmsg →
      methodIsProgress tmsg = false →
      jsonrpcIs20 tmsg = true →
      msgIdMatches tmsg reqId = true →
      handleSSEStream (some [joinLines (plines ++ [tline])]) reqId =
        (pmsgs.map (fun m => m.getField "params"), Except.ok tmsg) := by
  intro reqId plines pmsgs tline tmsg hnl hnlt hforall hs hp hm hj hid
  have hall : ∀ l ∈ plines ++ [tline], '\n' ∉ l := by
    intro l hl
    rcases List.mem_append.mp hl with h | h
    · exact hnl l h
    · rw [List.mem_singleton.mp h]
      exact hnlt
  have hfold := feed_single_chunk reqId (plines ++ [tline]) hall
  simp only [handleSSEStream]
  rw [hfold, List.foldl_append, foldl_progress_lines reqId plines pmsgs hforall]
  simp only [List.foldl_cons, List.foldl_nil]
  rw [processSSELine_terminal reqId _ _ _ hs hp hm hj hid]
  simp

/-- Witness for C3: one progress notification followed by the terminal
result, N = 1. -/
theorem sse_progress_order_C3_witness :
    handleSSEStream (some [joinLines
      [("data: \x7b\"method\":\"notifications/progress\",\"params\":\x7b\"progress\":1\x7d\x7d").data,
       ("data: \x7b\"jsonrpc\":\"2.0\",\"id\":1,\"result\":\"done\"\x7d").data]]) (.num 1) =
      ([some (Json.obj [("progress", Json.num 1)])],
        Except.ok (Json.obj [("jsonrpc", Json.str "2.0"), ("id", Json.num 1),
          ("result", Json.str "done")])) := by
  have h := sse_progress_order_C3 (.num 1)
    [("data: \x7b\"method\":\"notifications/progress\",\"params\":\x7b\"progress\":1\x7d\x7d").data]
    [Json.obj [("method", Json.str "notifications/progress"),
      ("params", Json.obj [("progress", Json.num 1)])]]
    ("data: \x7b\"jsonrpc\":\"2.0\",\"id\":1,\"result\":\"done\"\x7d").data
    (Json.obj [("jsonrpc", Json.str "2.0"), ("id", Json.num 1),
      ("result", Json.str "done")])
    (by decide) (by decide)
    (List.Forall₂.cons ⟨rfl, rfl, rfl⟩ List.Forall₂.nil)
    rfl rfl rfl rfl rfl
  exact h

/-- Counterexample for C1: a stream holding two distinct messages that both
carry the expected correlation id.  The reassembler returns the second
message, not the first — the claim that the first matching message is
captured and later ones are ignored is false on this input. -/
theorem sse_first_match_counterexample_C1 :
    (handleSSEStream (some [joinLines
      [("data: \x7b\"jsonrpc\":\"2.0\",\"id\":1,\"result\":\"A\"\x7d").data,
       ("data: \x7b\"jsonrpc\":\"2.0\",\"id\":1,\"result\":\"B\"\x7d").data]]) (.num 1)).2 =
      Except.ok (Json.obj [("jsonrpc", Json.str "2.0"), ("id", Json.num 1),
        ("result", Json.str "B")]) ∧
    (handleSSEStream (some [joinLines
      [("data: \x7b\"jsonrpc\":\"2.0\",\"id\":1,\"result\":\"A\"\x7d").data,
       ("data: \x7b\"jsonrpc\":\"2.0\",\"id\":1,\"result\":\"B\"\x7d").data]]) (.num 1)).2 ≠
      Except.ok (Json.obj [("jsonrpc", Json.str "2.0"), ("id", Json.num 1),
        ("result", Json.str "A")]) ∧
    Json.obj [("jsonrpc", Json.str "2.0"), ("id", Json.num 1),
        ("result", Json.str "A")] ≠
      Json.obj [("jsonrpc", Json.str "2.0"), ("id", Json.num 1),
        ("result", Json.str "B")] := by
  refine ⟨rfl, ?_, by simp⟩
  rw [show (handleSSEStream (some [joinLines
      [("data: \x7b\"jsonrpc\":\"2.0\",\"id\":1,\"result\":\"A\"\x7d").data,
       ("data: \x7b\"jsonrpc\":\"2.0\",\"id\":1,\"result\":\"B\"\x7d").data]]) (.num 1)).2 =
      Except.ok (Json.obj [("jsonrpc", Json.str "2.0"), ("id", Json.num 1),
        ("result", Json.str "B")]) from rfl]
  simp

/-- C1 (amended): the terminal result captured by the reassembler is the
message of the last matching data line — a later stream message with the
expected correlation id overwrites an earlier one, for every prefix of
preceding lines. -/
theorem sse_last_match_wins_C1 :
    ∀ (reqId : RpcId) (lines : List (List Char)) (tline : List Char) (tmsg : Json),
      (∀ l ∈ lines, '\n' ∉ l) → '\n' ∉ tline →
      startsWithChars "data: ".data tline = true →
      jsonParse (String.mk (trimChars (tline.drop 6))) = some tmsg →
      methodIsProgress tmsg = false →
      jsonrpcIs20 tmsg = true →
      msgIdMatches tmsg reqId = true →
      (handleSSEStream (some [joinLines (lines ++ [tline])]) reqId).2 =
        Except.ok tmsg := by
  intro reqId lines tline tmsg hnl hnlt hs hp hm hj hid
  have hall : ∀ l ∈ lines ++ [tline], '\n' ∉ l := by
    intro l hl
    rcases List.mem_append.mp hl with h | h
    · exact hnl l h
    · rw [List.mem_singleton.mp h]
      exact hnlt
  have hfold := feed_single_chunk reqId (lines ++ [tline]) hall
  simp only [handleSSEStream]
  rw [hfold, List.foldl_append]
  simp only [List.foldl_cons, List.foldl_nil]
  rw [processSSELine_terminal reqId _ _ _ hs hp hm hj hid]

/-- Witness for C1 (amended): the two-terminal stream of the counterexample;
the amended claim yields the second message. -/
theorem sse_last_match_wins_C1_witness :
    (handleSSEStream (some [joinLines
      [("data: \x7b\"jsonrpc\":\"2.0\",\"id\":1,\"result\":\"A\"\x7d").data,
       ("data: \x7b\"jsonrpc\":\"2.0\",\"id\":1,\"result\":\"B\"\x7d").data]]) (.num 1)).2 =
      Except.ok (Json.obj [("jsonrpc", Json.str "2.0"), ("id", Json.num 1),
        ("result", Json.str "B")]) :=
  sse_last_match_wins_C1 (.num 1)
    [("data: \x7b\"jsonrpc\":\"2.0\",\"id\":1,\"result\":\"A\"\x7d").data]
    ("data: \x7b\"jsonrpc\":\"2.0\",\"id\":1,\"result\":\"B\"\x7d").data
    (Json.obj [("jsonrpc", Json.str "2.0"), ("id", Json.num 1),
      ("result", Json.str "B")])
    (by decide) (by decide) rfl rfl rfl rfl rfl
